import Mathlib

/-!
Verification development for `datamanipy/file.py`: a `File` class (path
bookkeeping plus create/open/remove) and a `Sas` subclass (read a
`.sas7bdat` tabular file, in full or in chunks, and convert it to CSV).

The embedding is shallow: paths and text are explicit character lists,
the filesystem is a map from paths to file data, and each Python method
becomes a Lean function on that state.  The path-splitting helpers
(`os.path.split`, `os.path.splitext`, `os.path.join`, `os.path.normpath`)
are translated from the CPython posixpath module, which is what
`os.path` resolves to on the POSIX platforms the library targets.
The external tabular reader (`pyreadstat`) is not part of this
repository; it is modelled from the spec as a black-box decoder that turns
a well-formed tabular file into a header plus a list of rows, with the
chunked variant yielding successive non-empty row slices of at most
`chunksize` rows, in file order.
-/

/-- Text (a path, the content of a file, a message) as an explicit character list. -/
abbrev Str := List Char

/-- One more than the index of the last occurrence of `c` in `s`
(`0` when `c` does not occur): Python `s.rfind(c) + 1`. -/
def rfindSucc (c : Char) : Str → Nat
  | [] => 0
  | a :: rest =>
      let r := rfindSucc c rest
      if r > 0 then r + 1 else if a = c then 1 else 0

/-- Remove every trailing occurrence of `c`: Python `s.rstrip(c)`. -/
def rstrip (c : Char) (s : Str) : Str :=
  (s.reverse.dropWhile (fun a => a = c)).reverse

/-- Model of `posixpath.split`: cut at the position just after the last `'/'`;
strip trailing slashes from the head unless the head is empty or all
slashes.  Used by `File.__init__` for `self.directory, self.file`. -/
def posixSplit (p : Str) : Str × Str :=
  let i := rfindSucc '/' p
  let head := p.take i
  let tail := p.drop i
  if head ≠ [] ∧ ¬ head.all (fun a => a = '/') then (rstrip '/' head, tail)
  else (head, tail)

/-- Model of `posixpath.splitext`: split off the extension at the last dot, unless
every character between the start of the final path component and that
dot is itself a dot (so dotfiles such as `.bashrc` have no extension).
Used by `File.__init__` for `self.name, self.extension`. -/
def splitext (p : Str) : Str × Str :=
  let si := rfindSucc '/' p
  let di := rfindSucc '.' p
  if si < di then
    let mid := (p.drop si).take (di - 1 - si)
    if mid.all (fun a => a = '.') then (p, [])
    else (p.take (di - 1), p.drop (di - 1))
  else (p, [])

/-- Model of `posixpath.join` restricted to two arguments, as called by
`Sas.to_csv`, which joins `self.directory` with `self.name` plus the
`.csv` suffix. -/
def posixJoin (a b : Str) : Str :=
  if b.take 1 = ['/'] then b
  else if a = [] ∨ a.getLast? = some '/' then a ++ b
  else a ++ '/' :: b

/-- Model of `posixpath.normpath`: collapse repeated slashes and `.` components and
resolve `..` components, keeping the POSIX special case of exactly two
leading slashes.  Used only to state path-normalization claims. -/
def posixNormpath (p : Str) : Str :=
  if p = [] then ['.']
  else
    let initialSlashes : Nat :=
      if p.take 1 = ['/'] then
        (if p.take 2 = ['/', '/'] ∧ p.take 3 ≠ ['/', '/', '/'] then 2 else 1)
      else 0
    let comps := p.splitOn '/'
    let newComps := comps.foldl
      (fun acc comp =>
        if comp = [] ∨ comp = ['.'] then acc
        else if comp ≠ ['.', '.'] ∨ (initialSlashes = 0 ∧ acc = [])
                ∨ acc.getLast? = some ['.', '.'] then acc ++ [comp]
        else if acc ≠ [] then acc.dropLast else acc)
      []
    let res := List.replicate initialSlashes '/' ++ List.intercalate ['/'] newComps
    if res = [] then ['.'] else res

/-- The decoded content of a tabular (`sas7bdat`) file: column names and
rows of cell values, already rendered as text. -/
structure SasTable where
  header : List Str
  rows : List (List Str)
deriving DecidableEq

/-- What is stored at a path: a text file (with the encoding it was last
written with) or a well-formed binary tabular file.  A text file at a
path read as tabular data fails to parse. -/
inductive FileData where
  | text (encoding : Option Str) (content : Str)
  | sas (t : SasTable)
deriving DecidableEq

/-- The filesystem: every path holds either some file data or nothing. -/
abbrev Fs := Str → Option FileData

/-- Update the filesystem at one path. -/
def setFile (fs : Fs) (p : Str) (d : Option FileData) : Fs :=
  fun q => if q = p then d else fs q

/-- The errors the library can raise: `FileNotFoundError` from a read
open, `FileExistsError` from an exclusive-create open, `TypeError` from
the `Sas` extension check, and a parse failure from the tabular reader. -/
inductive Err where
  | notFound (p : Str)
  | alreadyExists (p : Str)
  | typeError (msg : Str)
  | parseError
deriving DecidableEq

/-- Does a result carry the unsupported-type (`TypeError`) error? -/
def isTypeError {α : Type} : Except Err α → Bool
  | .error (.typeError _) => true
  | _ => false

/-- An open in default read mode followed by an immediate close, as in the
probe `with self.open() as f: pass` of `File.__init__`: succeeds exactly
when something exists at the path, changing nothing. -/
def probeOpen (fs : Fs) (p : Str) : Except Err Unit :=
  match fs p with
  | some _ => .ok ()
  | none => .error (.notFound p)

/-- An open in exclusive-create mode followed by close, as in `File.create`: fails
if the path is occupied, otherwise leaves a fresh empty text file. -/
def openCreate (fs : Fs) (p : Str) : Except Err Fs :=
  match fs p with
  | some _ => .error (.alreadyExists p)
  | none => .ok (setFile fs p (some (.text none [])))

/-- The attributes a constructed `File` object carries. -/
structure FileObj where
  path : Str
  encoding : Option Str
  directory : Str
  file : Str
  name : Str
  extension : Str
deriving DecidableEq

/-- Model of `File.__init__(path, encoding=None)`: record the path and encoding,
derive `directory`/`file` by `os.path.split` and `name`/`extension` by
`os.path.splitext`, then probe-open the path in default read mode; the
failure of the probe aborts construction. -/
def File.init (fs : Fs) (path : Str) (encoding : Option Str) : Except Err FileObj :=
  match probeOpen fs path with
  | .ok _ =>
      .ok ⟨path, encoding, (posixSplit path).1, (posixSplit path).2,
           (splitext (posixSplit path).2).1, (splitext (posixSplit path).2).2⟩
  | .error e => .error e

/-- The notice printed by `File.create`. -/
def createMsg (f : FileObj) : Str :=
  "File ".data ++ f.file ++ " created in ".data ++ f.directory

/-- Model of `File.create()`: open the path in exclusive-create mode; on success
print a notice and leave the new empty file closed. -/
def File.create (fs : Fs) (f : FileObj) : Except Err (Fs × List Str) :=
  match openCreate fs f.path with
  | .ok fs2 => .ok (fs2, [createMsg f])
  | .error e => .error e

/-- Model of `File.remove()`: `os.remove(self.path)`, failing if nothing is there. -/
def File.remove (fs : Fs) (f : FileObj) : Except Err Fs :=
  match fs f.path with
  | some _ => .ok (setFile fs f.path none)
  | none => .error (.notFound f.path)

/-- The recognized tabular extension. -/
def sasExt : Str := ".sas7bdat".data

/-- The `TypeError` message of `Sas.__init__`. -/
def typeErrMsg (file : Str) : Str := file ++ " is not a sas7bdat file".data

/-- Model of `Sas.__init__(path, encoding=latin1)`: run `File.__init__` first
(so its probe failure wins), then reject any extension other than
`.sas7bdat`. -/
def Sas.init (fs : Fs) (path : Str) (encoding : Str) : Except Err FileObj :=
  match File.init fs path (some encoding) with
  | .ok f =>
      if f.extension ≠ sasExt then .error (.typeError (typeErrMsg f.file))
      else .ok f
  | .error e => .error e

/-- Modelled from the spec: the decoding step of the external tabular reader
(`pyreadstat.read_sas7bdat`), absent from this repository.  A
well-formed tabular file decodes to its header and rows; anything else
at the path fails with a parse error. -/
def readSasTable (fs : Fs) (p : Str) : Except Err SasTable :=
  match fs p with
  | some (.sas t) => .ok t
  | _ => .error .parseError

/-- A row cap where `0` means unlimited, as in `pyreadstat`'s
`row_limit`/`limit` parameters. -/
def applyLimit (rowLimit : Nat) (rows : List (List Str)) : List (List Str) :=
  if rowLimit = 0 then rows else rows.take rowLimit

/-- Fuel-indexed worker for `chunksOf`: successive slices of at most `k`
elements.  The fuel only forces termination and is irrelevant once it is
at least `l.length`; `k = 0` yields no slices (that degenerate case is
never reached: `to_csv` uses `chunksize = 10000`). -/
def chunksOfGo (fuel k : Nat) (l : List (List Str)) : List (List (List Str)) :=
  match fuel with
  | 0 => []
  | fuel + 1 =>
      match l with
      | [] => []
      | _ => if k = 0 then [] else l.take k :: chunksOfGo fuel k (l.drop k)

/-- Modelled from the spec: how the external chunked reader
(`pyreadstat.read_file_in_chunks`) slices the row list — successive
non-empty slices of at most `k` rows, in file order, so a file with no
rows yields no chunks. -/
def chunksOf (k : Nat) (l : List (List Str)) : List (List (List Str)) :=
  chunksOfGo l.length k l

/-- Model of `Sas.read(row_limit=0)`: one full decode through the external
reader, capped at `row_limit` rows (0 = unlimited). -/
def Sas.read (fs : Fs) (f : FileObj) (rowLimit : Nat) : Except Err SasTable :=
  (readSasTable fs f.path).map (fun t => ⟨t.header, applyLimit rowLimit t.rows⟩)

/-- Model of `Sas.read_in_chunks(row_limit=0, chunksize=10000)`: the chunked
decode; each yielded pair is a data frame (header plus at most
`chunksize` rows) with its metadata, in file order. -/
def Sas.readInChunks (fs : Fs) (f : FileObj) (rowLimit chunksize : Nat) : Except Err (List SasTable) :=
  (readSasTable fs f.path).map
    (fun t => (chunksOf chunksize (applyLimit rowLimit t.rows)).map (fun c => ⟨t.header, c⟩))

/-- One CSV line: cells joined by `';'` plus a newline — the dialect
`df.to_csv(..., sep=';', index=False)` produces. -/
def renderRow (r : List Str) : Str := List.intercalate [';'] r ++ ['\n']

/-- The text one `df.to_csv(..., header=header, ...)` call appends: the
header line when `header` is true, then every row of the chunk. -/
def renderChunk (header : Bool) (t : SasTable) : Str :=
  (if header then renderRow t.header else []) ++ (t.rows.map renderRow).flatten

/-- The text currently stored at a path (empty when absent). -/
def textContent (fs : Fs) (p : Str) : Str :=
  match fs p with
  | some (.text _ c) => c
  | _ => []

/-- An append-mode (`mode='a'`) text write with the given encoding:
creates the file when absent, otherwise appends to it. -/
def appendText (fs : Fs) (p : Str) (enc : Option Str) (s : Str) : Fs :=
  setFile fs p (some (.text enc (textContent fs p ++ s)))

/-- The write loop of `Sas.to_csv`: append each chunk in order, with the
header flag true for the first chunk only. -/
def writeChunks (fs : Fs) (p : Str) (enc : Option Str) : Bool → List SasTable → Fs
  | _, [] => fs
  | header, c :: rest => writeChunks (appendText fs p enc (renderChunk header c)) p enc false rest

/-- The text the whole write loop appends for a given chunk list: the
first chunk with the header flag, the rest without. -/
def renderAll : Bool → List SasTable → Str
  | _, [] => []
  | h, c :: rest => renderChunk h c ++ renderAll false rest

/-- The target path `Sas.to_csv` derives: `os.path.join` of
`self.directory` and `self.name` plus the `.csv` suffix. -/
def csvPath (f : FileObj) : Str := posixJoin f.directory (f.name ++ ".csv".data)

/-- The warning printed by `Sas.to_csv` when a previous target existed. -/
def warnMsg (csvFile : Str) : Str :=
  "Warning : csv file ".data ++ csvFile ++ " already existed and has been removed.".data

/-- The completion notice printed by `Sas.to_csv`. -/
def doneMsg (file csvFile : Str) : Str :=
  "Sas file ".data ++ file ++ " converted to csv file ".data ++ csvFile

/-- The outcome of a `Sas.to_csv` call: the filesystem after its side
effects, the notices printed, and the uncaught error when one escaped. -/
structure CsvRun where
  fs : Fs
  msgs : List Str
  err : Option Err

/-- Model of `Sas.to_csv()`: derive the target path; try to `os.remove` a previous
file there, printing a warning on success and swallowing any failure;
then iterate `read_in_chunks()` with defaults (unlimited rows, chunks of
10000), appending each chunk with a header for the first chunk only, the
encoding of the object, separator `';'` and no index column; finally print a
completion notice.  A reader failure escapes uncaught, after the
pre-clean removal has already happened. -/
def Sas.toCsv (fs : Fs) (f : FileObj) : CsvRun :=
  let csvFile := f.name ++ ".csv".data
  let target := csvPath f
  let pre : Fs × List Str :=
    match fs target with
    | some _ => (setFile fs target none, [warnMsg csvFile])
    | none => (fs, [])
  match Sas.readInChunks pre.1 f 0 10000 with
  | .error e => ⟨pre.1, pre.2, some e⟩
  | .ok chunks =>
      ⟨writeChunks pre.1 target f.encoding true chunks, pre.2 ++ [doneMsg f.file csvFile], none⟩

/-- A sample three-row table, used as concrete input for witnesses. -/
def tblW : SasTable :=
  ⟨["colA".data, "colB".data],
   [["1".data, "2".data], ["3".data, "4".data], ["5".data, "6".data]]⟩

/-- A sample zero-row table. -/
def tblEmpty : SasTable := ⟨["colA".data, "colB".data], []⟩

/-- A sample source path. -/
def srcPath : Str := "/d/a.sas7bdat".data

/-- A filesystem holding the three-row table at the sample source path. -/
def fsRound : Fs := fun q => if q = srcPath then some (.sas tblW) else none

/-- The object `Sas.__init__` builds for the sample source path. -/
def objRound : FileObj :=
  ⟨srcPath, some "latin1".data, "/d".data, "a.sas7bdat".data, "a".data, ".sas7bdat".data⟩

/-- A filesystem holding the zero-row table at the sample source path. -/
def fsEmptyTbl : Fs := fun q => if q = srcPath then some (.sas tblEmpty) else none

/-- A filesystem where the sample source path holds unparseable text and
an old CSV file sits at the conversion target. -/
def fsCorrupt : Fs := fun q =>
  if q = srcPath then some (.text none "junk".data)
  else if q = "/d/a.csv".data then some (.text none "old".data) else none

/-- A filesystem holding one file at a separator-free relative path. -/
def fsRel : Fs := fun q =>
  if q = "data.sas7bdat".data then some (.text none []) else none

/-- The object `File.__init__` builds for that relative path. -/
def objRel : FileObj :=
  ⟨"data.sas7bdat".data, none, [], "data.sas7bdat".data, "data".data, ".sas7bdat".data⟩

/-- A filesystem holding a tabular file whose whole name is `.sas7bdat`. -/
def fsDot : Fs := fun q => if q = "/d/.sas7bdat".data then some (.sas tblW) else none

/-- The empty filesystem. -/
def fsNone : Fs := fun _ => none

/-! ## Chunking lemmas -/

theorem chunksOfGo_nil (fuel k : Nat) : chunksOfGo fuel k [] = [] := by
  cases fuel <;> rfl

theorem chunksOfGo_congr (k : Nat) :
    ∀ (fuel fuel2 : Nat) (l : List (List Str)),
      l.length ≤ fuel → l.length ≤ fuel2 → chunksOfGo fuel k l = chunksOfGo fuel2 k l := by
  intro fuel
  induction fuel with
  | zero =>
      intro fuel2 l h1 _
      have hl : l = [] := List.eq_nil_of_length_eq_zero (Nat.le_zero.mp h1)
      subst hl
      rw [chunksOfGo_nil, chunksOfGo_nil]
  | succ n ih =>
      intro fuel2 l h1 h2
      cases l with
      | nil => rw [chunksOfGo_nil, chunksOfGo_nil]
      | cons a t =>
          cases fuel2 with
          | zero => simp at h2
          | succ m =>
              show (if k = 0 then [] else (a :: t).take k :: chunksOfGo n k ((a :: t).drop k))
                  = (if k = 0 then [] else (a :: t).take k :: chunksOfGo m k ((a :: t).drop k))
              by_cases hk : k = 0
              · simp [hk]
              · simp only [if_neg hk]
                have hlen : ((a :: t).drop k).length = (a :: t).length - k := List.length_drop ..
                have h1' : ((a :: t).drop k).length ≤ n := by
                  rw [hlen]; simp only [List.length_cons] at h1 ⊢; omega
                have h2' : ((a :: t).drop k).length ≤ m := by
                  rw [hlen]; simp only [List.length_cons] at h2 ⊢; omega
                rw [ih m ((a :: t).drop k) h1' h2']

theorem chunksOf_cons (k : Nat) (l : List (List Str)) (hk : k ≠ 0) (hl : l ≠ []) :
    chunksOf k l = l.take k :: chunksOf k (l.drop k) := by
  unfold chunksOf
  cases l with
  | nil => exact absurd rfl hl
  | cons a t =>
      show (if k = 0 then [] else (a :: t).take k :: chunksOfGo t.length k ((a :: t).drop k))
          = (a :: t).take k :: chunksOfGo ((a :: t).drop k).length k ((a :: t).drop k)
      rw [if_neg hk]
      have hlen : ((a :: t).drop k).length = (a :: t).length - k := List.length_drop ..
      have h1 : ((a :: t).drop k).length ≤ t.length := by
        rw [hlen]; simp only [List.length_cons]; omega
      rw [chunksOfGo_congr k t.length ((a :: t).drop k).length ((a :: t).drop k) h1 le_rfl]

theorem chunksOf_flatten (k : Nat) (hk : 1 ≤ k) (l : List (List Str)) :
    (chunksOf k l).flatten = l := by
  by_cases hl : l = []
  · subst hl; rfl
  · rw [chunksOf_cons k l (by omega) hl, List.flatten_cons,
        chunksOf_flatten k hk (l.drop k), List.take_append_drop]
termination_by l.length
decreasing_by
  have := List.length_pos.mpr hl
  simp only [List.length_drop]
  omega

theorem chunksOf_ne_nil (k : Nat) (l : List (List Str)) (hk : k ≠ 0) (hl : l ≠ []) :
    chunksOf k l ≠ [] := by
  rw [chunksOf_cons k l hk hl]
  simp

/-- C1: concatenating, in yield order, the row-chunks produced by
`read_in_chunks(chunksize=k)` (any `k ≥ 1`, no row limit) gives exactly
the rows returned by `read()` on the same file, in the same order; the
two calls also fail on exactly the same inputs. -/
theorem readInChunks_concat_eq_read (fs : Fs) (f : FileObj) (k : Nat) (hk : 1 ≤ k) :
    (Sas.readInChunks fs f 0 k).map (fun cs => (cs.map SasTable.rows).flatten)
      = (Sas.read fs f 0).map SasTable.rows := by
  unfold Sas.readInChunks Sas.read
  cases h : readSasTable fs f.path with
  | error e => rfl
  | ok t =>
      simp only [Except.map, applyLimit, if_pos rfl, List.map_map]
      have hcomp : (SasTable.rows ∘ fun c => (⟨t.header, c⟩ : SasTable)) = id := rfl
      rw [hcomp, List.map_id, chunksOf_flatten k hk]

/-- Witness for C1 at a concrete three-row file and chunk size 2. -/
theorem readInChunks_concat_eq_read_witness :
    1 ≤ 2 ∧ (Sas.readInChunks fsRound objRound 0 2).map (fun cs => (cs.map SasTable.rows).flatten)
      = (Sas.read fsRound objRound 0).map SasTable.rows :=
  ⟨by decide, readInChunks_concat_eq_read fsRound objRound 2 (by decide)⟩

/-! ## Write-loop lemmas -/

theorem writeChunks_apply_ne :
    ∀ (cs : List SasTable) (fs : Fs) (p : Str) (enc : Option Str) (h : Bool) (q : Str),
      q ≠ p → writeChunks fs p enc h cs q = fs q := by
  intro cs
  induction cs with
  | nil => intro fs p enc h q _; rfl
  | cons c rest ih =>
      intro fs p enc h q hq
      show writeChunks (appendText fs p enc (renderChunk h c)) p enc false rest q = fs q
      rw [ih _ _ _ _ _ hq]
      simp [appendText, setFile, if_neg hq]

theorem writeChunks_apply :
    ∀ (cs : List SasTable) (fs : Fs) (p : Str) (enc : Option Str) (h : Bool),
      writeChunks fs p enc h cs p
        = if cs = [] then fs p else some (.text enc (textContent fs p ++ renderAll h cs)) := by
  intro cs
  induction cs with
  | nil => intro fs p enc h; rfl
  | cons c rest ih =>
      intro fs p enc h
      show writeChunks (appendText fs p enc (renderChunk h c)) p enc false rest p = _
      rw [ih]
      have happ : (appendText fs p enc (renderChunk h c)) p
          = some (.text enc (textContent fs p ++ renderChunk h c)) := by
        simp [appendText, setFile]
      have htc : textContent (appendText fs p enc (renderChunk h c)) p
          = textContent fs p ++ renderChunk h c := by
        simp [textContent, happ]
      by_cases hr : rest = []
      · simp [hr, happ, renderAll]
      · simp [hr, htc, renderAll, List.append_assoc]

theorem renderAll_false_map (hdr : List Str) (css : List (List (List Str))) :
    renderAll false (css.map (fun c => (⟨hdr, c⟩ : SasTable)))
      = (css.flatten.map renderRow).flatten := by
  induction css with
  | nil => rfl
  | cons c rest ih =>
      simp only [List.map_cons, renderAll, renderChunk, ih, List.flatten_cons,
        List.map_append, List.flatten_append]
      simp

theorem renderAll_chunks (k : Nat) (hk : 1 ≤ k) (hdr : List Str) (rows : List (List Str))
    (hr : rows ≠ []) :
    renderAll true ((chunksOf k rows).map (fun c => (⟨hdr, c⟩ : SasTable)))
      = renderRow hdr ++ (rows.map renderRow).flatten := by
  rw [chunksOf_cons k rows (by omega) hr]
  simp only [List.map_cons, renderAll, renderChunk, if_pos]
  rw [renderAll_false_map hdr (chunksOf k (rows.drop k)), chunksOf_flatten k hk]
  rw [List.append_assoc, ← List.flatten_append, ← List.map_append, List.take_append_drop]

/-! ## Path decomposition lemmas -/

theorem splitext_concat (p : Str) : (splitext p).1 ++ (splitext p).2 = p := by
  simp only [splitext]
  split_ifs <;> simp [List.take_append_drop]

theorem posixSplit_snd (p : Str) : (posixSplit p).2 = p.drop (rfindSucc '/' p) := by
  simp only [posixSplit]
  split_ifs <;> rfl

theorem sasInit_ok_elim (fs : Fs) (p : Str) (enc : Str) (f : FileObj)
    (h : Sas.init fs p enc = .ok f) :
    f = ⟨p, some enc, (posixSplit p).1, (posixSplit p).2,
         (splitext (posixSplit p).2).1, (splitext (posixSplit p).2).2⟩
      ∧ (fs p).isSome ∧ f.extension = sasExt := by
  cases hfs : fs p with
  | none => simp [Sas.init, File.init, probeOpen, hfs] at h
  | some d =>
      simp only [Sas.init, File.init, probeOpen, hfs] at h
      by_cases hx : (splitext (posixSplit p).2).2 ≠ sasExt
      · rw [if_pos hx] at h; simp at h
      · rw [if_neg hx] at h
        push_neg at hx
        cases h
        exact ⟨rfl, rfl, hx⟩

theorem getLast?_csvPath (f : FileObj) : (csvPath f).getLast? = some 'v' := by
  have hb : (f.name ++ ".csv".data).getLast? = some 'v' := by
    rw [List.getLast?_append_of_ne_nil f.name (by decide : (".csv".data : Str) ≠ [])]
    decide
  have hbne : f.name ++ ".csv".data ≠ [] := by
    intro hnil; rw [hnil] at hb; simp at hb
  simp only [csvPath, posixJoin]
  split_ifs
  · exact hb
  · rw [List.getLast?_append_of_ne_nil f.directory hbne]; exact hb
  · show (f.directory ++ ('/' :: (f.name ++ ".csv".data))).getLast? = some 'v'
    rw [List.getLast?_append_of_ne_nil f.directory (by simp)]
    rw [show ('/' :: (f.name ++ ".csv".data)) = ['/'] ++ (f.name ++ ".csv".data) from rfl]
    rw [List.getLast?_append_of_ne_nil ['/'] hbne]
    exact hb

theorem sasInit_path_last (fs : Fs) (p : Str) (enc : Str) (f : FileObj)
    (h : Sas.init fs p enc = .ok f) : f.path.getLast? = some 't' := by
  obtain ⟨hf, -, hext⟩ := sasInit_ok_elim fs p enc f h
  have hfile : f.name ++ f.extension = f.file := by
    rw [hf]; exact splitext_concat (posixSplit p).2
  have hext_ne : f.extension ≠ [] := by rw [hext]; decide
  have hfl : f.file.getLast? = some 't' := by
    rw [← hfile, List.getLast?_append_of_ne_nil f.name hext_ne, hext]
    decide
  have hdrop : f.file = p.drop (rfindSucc '/' p) := by rw [hf]; exact posixSplit_snd p
  have hfile_ne : f.file ≠ [] := by
    intro hnil; rw [hnil] at hfl; simp at hfl
  have hsplit : p.take (rfindSucc '/' p) ++ f.file = p := by
    rw [hdrop]; exact List.take_append_drop ..
  have hpath : f.path = p := by rw [hf]
  rw [hpath, ← hsplit, List.getLast?_append_of_ne_nil _ hfile_ne]
  exact hfl

theorem sasInit_src_ne_csvPath (fs : Fs) (p : Str) (enc : Str) (f : FileObj)
    (h : Sas.init fs p enc = .ok f) : f.path ≠ csvPath f := by
  intro heq
  have h1 := sasInit_path_last fs p enc f h
  rw [heq, getLast?_csvPath] at h1
  simp at h1

theorem readInChunks_ok (fs : Fs) (f : FileObj) (t : SasTable) (ht : fs f.path = some (.sas t)) :
    Sas.readInChunks fs f 0 10000
      = .ok ((chunksOf 10000 t.rows).map (fun c => (⟨t.header, c⟩ : SasTable))) := by
  simp [Sas.readInChunks, readSasTable, ht, applyLimit, Except.map]

/-- C4: on a successfully constructed `Sas` object over a parseable
source with at least one row, `to_csv()` reports no error and the file
at the join of `directory` and `name` plus the `.csv` suffix holds, in the
configured encoding, exactly one header line followed by every row in
order, cells joined by `';'` with no index column — i.e. the header is
written for the first chunk only and each chunk is appended in order. -/
theorem toCsv_writes_csv (fs : Fs) (p enc : Str) (f : FileObj) (t : SasTable)
    (hf : Sas.init fs p enc = .ok f) (ht : fs f.path = some (.sas t)) (hr : t.rows ≠ []) :
    (Sas.toCsv fs f).err = none ∧
    (Sas.toCsv fs f).fs (posixJoin f.directory (f.name ++ ".csv".data))
      = some (.text f.encoding (renderRow t.header ++ (t.rows.map renderRow).flatten)) := by
  have hne : f.path ≠ csvPath f := sasInit_src_ne_csvPath fs p enc f hf
  have h10 : (10000 : Nat) ≠ 0 := by decide
  have hcne : (chunksOf 10000 t.rows).map (fun c => (⟨t.header, c⟩ : SasTable)) ≠ [] := by
    simp [chunksOf_ne_nil 10000 t.rows h10 hr]
  have hshow : posixJoin f.directory (f.name ++ ".csv".data) = csvPath f := rfl
  rw [hshow]
  cases htgt : fs (csvPath f) with
  | none =>
      have h1 := readInChunks_ok fs f t ht
      refine ⟨?_, ?_⟩
      · simp [Sas.toCsv, htgt, h1]
      · simp only [Sas.toCsv, htgt, h1]
        rw [writeChunks_apply, if_neg hcne]
        have htc : textContent fs (csvPath f) = [] := by simp [textContent, htgt]
        rw [htc, renderAll_chunks 10000 (by decide) t.header t.rows hr]
        simp
  | some d =>
      have hsrc : setFile fs (csvPath f) none f.path = some (.sas t) := by
        simp [setFile, if_neg hne, ht]
      have h1 := readInChunks_ok (setFile fs (csvPath f) none) f t hsrc
      refine ⟨?_, ?_⟩
      · simp [Sas.toCsv, htgt, h1]
      · simp only [Sas.toCsv, htgt, h1]
        rw [writeChunks_apply, if_neg hcne]
        have htc : textContent (setFile fs (csvPath f) none) (csvPath f) = [] := by
          simp [textContent, setFile]
        rw [htc, renderAll_chunks 10000 (by decide) t.header t.rows hr]
        simp

/-- Witness for C4 at a concrete three-row file. -/
theorem toCsv_writes_csv_witness :
    tblW.rows ≠ [] ∧
    (Sas.toCsv fsRound objRound).err = none ∧
    (Sas.toCsv fsRound objRound).fs (posixJoin objRound.directory (objRound.name ++ ".csv".data))
      = some (.text objRound.encoding (renderRow tblW.header ++ (tblW.rows.map renderRow).flatten)) :=
  ⟨by decide, toCsv_writes_csv fsRound srcPath ("latin1".data) objRound tblW rfl rfl (by decide)⟩

/-- C3 counterexample: on a concrete 0-row source, `to_csv()` finishes
without error yet creates no file at the target path — the chunked
reader yields no chunks, the loop body never runs, so no header line is
ever written; the claimed header-only CSV does not exist. -/
theorem toCsv_empty_counterexample :
    Sas.init fsEmptyTbl srcPath ("latin1".data) = .ok objRound ∧
    (Sas.toCsv fsEmptyTbl objRound).err = none ∧
    (Sas.toCsv fsEmptyTbl objRound).fs ("/d/a.csv".data) = none := by
  refine ⟨rfl, rfl, rfl⟩

/-- C3 (amended): on a successfully constructed `Sas` object over a
parseable source with 0 rows, `to_csv()` reports no error and prints the
completion notice, but writes no chunks: nothing exists at the target
path afterwards (any pre-existing file there has been removed), so no
header-only CSV is produced. -/
theorem toCsv_empty_rows (fs : Fs) (p enc : Str) (f : FileObj) (t : SasTable)
    (hf : Sas.init fs p enc = .ok f) (ht : fs f.path = some (.sas t)) (hr : t.rows = []) :
    (Sas.toCsv fs f).err = none ∧
    (Sas.toCsv fs f).fs (posixJoin f.directory (f.name ++ ".csv".data)) = none ∧
    (Sas.toCsv fs f).msgs.getLast? = some (doneMsg f.file (f.name ++ ".csv".data)) := by
  have hne : f.path ≠ csvPath f := sasInit_src_ne_csvPath fs p enc f hf
  have hchunks : chunksOf 10000 t.rows = [] := by rw [hr]; rfl
  have hshow : posixJoin f.directory (f.name ++ ".csv".data) = csvPath f := rfl
  rw [hshow]
  cases htgt : fs (csvPath f) with
  | none =>
      have h1 := readInChunks_ok fs f t ht
      refine ⟨?_, ?_, ?_⟩
      · simp [Sas.toCsv, htgt, h1]
      · simp only [Sas.toCsv, htgt, h1]
        rw [hchunks]
        show writeChunks fs (csvPath f) f.encoding true [] (csvPath f) = none
        rw [writeChunks_apply, if_pos rfl]
        exact htgt
      · simp [Sas.toCsv, htgt, h1]
  | some d =>
      have hsrc : setFile fs (csvPath f) none f.path = some (.sas t) := by
        simp [setFile, if_neg hne, ht]
      have h1 := readInChunks_ok (setFile fs (csvPath f) none) f t hsrc
      refine ⟨?_, ?_, ?_⟩
      · simp [Sas.toCsv, htgt, h1]
      · simp only [Sas.toCsv, htgt, h1]
        rw [hchunks]
        show writeChunks (setFile fs (csvPath f) none) (csvPath f) f.encoding true [] (csvPath f)
            = none
        rw [writeChunks_apply, if_pos rfl]
        simp [setFile]
      · simp [Sas.toCsv, htgt, h1]

/-- Witness for the amended C3 at a concrete 0-row file. -/
theorem toCsv_empty_rows_witness :
    tblEmpty.rows = [] ∧
    (Sas.toCsv fsEmptyTbl objRound).err = none ∧
    (Sas.toCsv fsEmptyTbl objRound).fs
      (posixJoin objRound.directory (objRound.name ++ ".csv".data)) = none ∧
    (Sas.toCsv fsEmptyTbl objRound).msgs.getLast?
      = some (doneMsg objRound.file (objRound.name ++ ".csv".data)) :=
  ⟨rfl, toCsv_empty_rows fsEmptyTbl srcPath ("latin1".data) objRound tblEmpty rfl rfl rfl⟩

/-! ## Last-separator split lemmas -/

theorem rfindSucc_eq_zero (c : Char) (l : Str) (h : c ∉ l) : rfindSucc c l = 0 := by
  induction l with
  | nil => rfl
  | cons a t ih =>
      have hat : c ∉ t := fun hm => h (List.mem_cons_of_mem a hm)
      have hac : ¬ (a = c) := fun he => h (he ▸ List.mem_cons_self a t)
      simp [rfindSucc, ih hat, hac]

theorem rfindSucc_append (c : Char) (d f : Str) (hf : c ∉ f) :
    rfindSucc c (d ++ c :: f) = d.length + 1 := by
  induction d with
  | nil => simp [rfindSucc, rfindSucc_eq_zero c f hf]
  | cons a t ih => simp [rfindSucc, ih]

theorem posixSplit_append (d f : Str) (hd : d ≠ []) (hlast : d.getLast? ≠ some '/')
    (hf : '/' ∉ f) : posixSplit (d ++ '/' :: f) = (d, f) := by
  obtain ⟨x, hx⟩ : ∃ x, d.getLast? = some x := by
    cases hg : d.getLast? with
    | none => exact absurd (List.getLast?_eq_none_iff.mp hg) hd
    | some x => exact ⟨x, rfl⟩
  have hxs : x ≠ '/' := fun h => hlast (h ▸ hx)
  have hdx : d.dropLast ++ [x] = d := List.dropLast_append_getLast? x hx
  have hi : rfindSucc '/' (d ++ '/' :: f) = d.length + 1 := rfindSucc_append '/' d f hf
  have heq : d ++ '/' :: f = (d ++ ['/']) ++ f := by simp
  have hlen : (d ++ ['/']).length = d.length + 1 := by simp
  have htake : (d ++ '/' :: f).take (d.length + 1) = d ++ ['/'] := by
    rw [heq]; exact List.take_left' hlen
  have hdrop : (d ++ '/' :: f).drop (d.length + 1) = f := by
    rw [heq]; exact List.drop_left' hlen
  have hne : (d ++ ['/'] : Str) ≠ [] := by simp
  have hnall : ¬ (d ++ ['/']).all (fun a => a = '/') := by
    intro hall
    rw [List.all_eq_true] at hall
    have hmem : x ∈ d ++ ['/'] :=
      List.mem_append_left _ (by rw [← hdx]; exact List.mem_append_right _ (List.mem_singleton_self x))
    have := hall x hmem
    simp at this
    exact hxs this
  have hrstrip : rstrip '/' (d ++ ['/']) = d := by
    unfold rstrip
    rw [← hdx]
    have h1 : ((d.dropLast ++ [x]) ++ ['/']).reverse = '/' :: x :: d.dropLast.reverse := by simp
    rw [h1, List.dropWhile_cons, if_pos (by simp), List.dropWhile_cons, if_neg (by simp [hxs])]
    simp
  simp only [posixSplit, hi, htake, hdrop]
  rw [if_pos ⟨hne, hnall⟩, hrstrip]

/-- C5 counterexample: for the separator-free relative path
`data.sas7bdat` the handle is constructed successfully, yet joining
`directory`, the separator and `file` gives `/data.sas7bdat`, which
differs from the path even after normalization; the name/extension
recomposition, in contrast, still holds there. -/
theorem fileInit_split_counterexample :
    File.init fsRel ("data.sas7bdat".data) none = .ok objRel ∧
    posixNormpath (objRel.directory ++ '/' :: objRel.file) ≠ posixNormpath objRel.path ∧
    objRel.name ++ objRel.extension = objRel.file :=
  ⟨rfl, by decide, rfl⟩

/-- C5 (amended): `baseName + extension == fileName` holds for every
constructed handle, and `directory + separator + fileName == path`
(exactly, no normalization needed) for every path of the shape
`d ++ '/' ++ f` whose directory part `d` is non-empty and has no
trailing separator and whose final component `f` is separator-free; for
separator-free paths the directory is empty and the equality fails. -/
theorem fileInit_decompose (fs : Fs) (enc : Option Str) (d f : Str) (x : FileData)
    (hd : d ≠ []) (hlast : d.getLast? ≠ some '/') (hf : '/' ∉ f)
    (hx : fs (d ++ '/' :: f) = some x) :
    ∃ obj, File.init fs (d ++ '/' :: f) enc = .ok obj ∧
      obj.directory = d ∧ obj.file = f ∧
      obj.directory ++ '/' :: obj.file = d ++ '/' :: f ∧
      obj.name ++ obj.extension = obj.file := by
  have hsplit := posixSplit_append d f hd hlast hf
  refine ⟨⟨d ++ '/' :: f, enc, d, f, (splitext f).1, (splitext f).2⟩, ?_, rfl, rfl, rfl,
    splitext_concat f⟩
  simp [File.init, probeOpen, hx, hsplit]

/-- Witness for the amended C5 at the concrete path `/d/a.sas7bdat`. -/
theorem fileInit_decompose_witness :
    ("/d".data : Str) ≠ [] ∧
    (∃ obj, File.init fsRound ("/d".data ++ '/' :: "a.sas7bdat".data) none = .ok obj ∧
      obj.directory = "/d".data ∧ obj.file = "a.sas7bdat".data ∧
      obj.directory ++ '/' :: obj.file = "/d".data ++ '/' :: "a.sas7bdat".data ∧
      obj.name ++ obj.extension = obj.file) :=
  ⟨by decide, fileInit_decompose fsRound none ("/d".data) ("a.sas7bdat".data) (.sas tblW)
    (by decide) (by decide) (by decide) rfl⟩

/-! ## Extension-check lemmas -/

theorem sasInit_typeError_of_ext (fs : Fs) (p : Str) (enc : Str) (d : FileData)
    (hx : fs p = some d) (hext : (splitext (posixSplit p).2).2 ≠ sasExt) :
    Sas.init fs p enc = .error (.typeError (typeErrMsg (posixSplit p).2)) := by
  simp only [Sas.init, File.init, probeOpen, hx]
  rw [if_pos hext]

/-- C2 counterexample: on a nonexistent path with a non-`.sas7bdat`
extension, `Sas` construction fails with the not-found error from the
inherited probe open, not with the unsupported-type error — the claim's
"regardless of whether a file exists" is wrong because the `File`
constructor (and its probe) runs before the extension check. -/
theorem sasInit_missing_counterexample :
    Sas.init fsNone ("data.txt".data) ("latin1".data)
      = .error (.notFound ("data.txt".data)) ∧
    isTypeError (Sas.init fsNone ("data.txt".data) ("latin1".data)) = false :=
  ⟨rfl, rfl⟩

/-- C2 (amended): for every path that exists (so the probe open of the
inherited constructor succeeds) whose extension is not exactly
`.sas7bdat`, `Sas` construction fails with the unsupported-type
(`TypeError`) error naming the offending file; on a nonexistent path it
fails instead with the not-found error of the probe. -/
theorem sasInit_wrong_ext (fs : Fs) (p : Str) (enc : Str) (d : FileData)
    (hx : fs p = some d) (hext : (splitext (posixSplit p).2).2 ≠ sasExt) :
    Sas.init fs p enc = .error (.typeError (typeErrMsg (posixSplit p).2)) :=
  sasInit_typeError_of_ext fs p enc d hx hext

/-- Witness for the amended C2 at a concrete existing `.csv` file. -/
theorem sasInit_wrong_ext_witness :
    fsCorrupt ("/d/a.csv".data) = some (.text none ("old".data)) ∧
    Sas.init fsCorrupt ("/d/a.csv".data) ("latin1".data)
      = .error (.typeError (typeErrMsg (posixSplit ("/d/a.csv".data)).2)) :=
  ⟨rfl, sasInit_wrong_ext fsCorrupt ("/d/a.csv".data) ("latin1".data)
    (.text none ("old".data)) rfl (by decide)⟩

/-- C10: for every existing file whose final path component is exactly
`.sas7bdat`, `Sas` construction fails with the unsupported-type error:
`os.path.splitext` treats the leading dot as part of the base name, so
the extension is empty and the `.sas7bdat` check fails. -/
theorem sasInit_dotfile (fs : Fs) (p : Str) (enc : Str) (d : FileData)
    (hx : fs p = some d) (hsplit : (posixSplit p).2 = sasExt) :
    Sas.init fs p enc = .error (.typeError (typeErrMsg sasExt)) := by
  have hext : (splitext (posixSplit p).2).2 ≠ sasExt := by rw [hsplit]; decide
  have h := sasInit_typeError_of_ext fs p enc d hx hext
  rw [hsplit] at h
  exact h

/-- Witness for C10 at the concrete path `/d/.sas7bdat`. -/
theorem sasInit_dotfile_witness :
    (posixSplit ("/d/.sas7bdat".data)).2 = sasExt ∧
    Sas.init fsDot ("/d/.sas7bdat".data) ("latin1".data)
      = .error (.typeError (typeErrMsg sasExt)) :=
  ⟨by decide, sasInit_dotfile fsDot ("/d/.sas7bdat".data) ("latin1".data) (.sas tblW)
    rfl (by decide)⟩

/-! ## Creation, probing and the error policy of the conversion -/

theorem warnMsg_ne_doneMsg (a b c : Str) : warnMsg a ≠ doneMsg b c := by
  intro h
  have hw : warnMsg a
      = 'W' :: ("arning : csv file ".data ++ a ++ " already existed and has been removed.".data) :=
    rfl
  have hd : doneMsg b c
      = 'S' :: ("as file ".data ++ b ++ " converted to csv file ".data ++ c) := rfl
  rw [hw, hd] at h
  injection h with h1 _
  exact absurd h1 (by decide)

/-- C6: calling `create()` when a file already exists at the handle's
path fails with the already-exists error; on a path with nothing there
it succeeds, prints the informational notice, and afterwards the path
holds an empty text file which a probe open can read. -/
theorem create_spec (fs : Fs) (f : FileObj) :
    (∀ d, fs f.path = some d → File.create fs f = .error (.alreadyExists f.path)) ∧
    (fs f.path = none →
      File.create fs f = .ok (setFile fs f.path (some (.text none [])), [createMsg f]) ∧
      setFile fs f.path (some (.text none [])) f.path = some (.text none []) ∧
      probeOpen (setFile fs f.path (some (.text none []))) f.path = .ok ()) := by
  constructor
  · intro d hd; simp [File.create, openCreate, hd]
  · intro hn
    refine ⟨?_, ?_, ?_⟩
    · simp [File.create, openCreate, hn]
    · simp [setFile]
    · simp [probeOpen, setFile]

/-- Witness for C6: both branches at concrete filesystems. -/
theorem create_spec_witness :
    File.create fsRound objRound = .error (.alreadyExists objRound.path) ∧
    File.create fsNone objRound
      = .ok (setFile fsNone objRound.path (some (.text none [])), [createMsg objRound]) :=
  ⟨(create_spec fsRound objRound).1 (.sas tblW) rfl, ((create_spec fsNone objRound).2 rfl).1⟩

/-- C8: the probe open is the sole validation of the constructor — `File`
construction fails with error `e` exactly when the probe open fails with
`e` (in particular with the not-found error on a nonexistent path), and
succeeds whenever the probe succeeds. -/
theorem fileInit_probe (fs : Fs) (p : Str) (enc : Option Str) :
    (∀ e, File.init fs p enc = .error e ↔ probeOpen fs p = .error e) ∧
    (fs p = none → File.init fs p enc = .error (.notFound p)) ∧
    ((probeOpen fs p).isOk = true → (File.init fs p enc).isOk = true) := by
  cases hfs : fs p with
  | none =>
      refine ⟨?_, ?_, ?_⟩
      · intro e; simp [File.init, probeOpen, hfs]
      · intro _; simp [File.init, probeOpen, hfs]
      · intro h; simp [probeOpen, hfs, Except.isOk, Except.toBool] at h
  | some d =>
      refine ⟨?_, ?_, ?_⟩
      · intro e; simp [File.init, probeOpen, hfs]
      · intro h; simp [hfs] at h
      · intro _; simp [File.init, probeOpen, hfs, Except.isOk, Except.toBool]

/-- Witness for C8 at a concrete nonexistent path. -/
theorem fileInit_probe_witness :
    fsNone ("data.txt".data) = none ∧
    File.init fsNone ("data.txt".data) none = .error (.notFound ("data.txt".data)) :=
  ⟨rfl, (fileInit_probe fsNone ("data.txt".data) none).2.1 rfl⟩

theorem sasInit_ok_fileInit (fs : Fs) (p : Str) (encS : Str) (f : FileObj)
    (h : Sas.init fs p encS = .ok f) : File.init fs p (some encS) = .ok f := by
  obtain ⟨hf, hsome, -⟩ := sasInit_ok_elim fs p encS f h
  cases hfs : fs p with
  | none => rw [hfs] at hsome; simp at hsome
  | some d => simp [File.init, probeOpen, hfs, hf]

/-- C9: a handle (from `File` or `Sas` construction) exists only because
its path was openable, so with no intervening removal `create()` always
fails with the already-exists error; after a successful `remove()` of the
same path, `create()` succeeds — the fresh-path branch is reachable only
through an intervening removal. -/
theorem create_after_init (fs : Fs) (p : Str) (f : FileObj)
    (h : (∃ enc, File.init fs p enc = .ok f) ∨ (∃ encS, Sas.init fs p encS = .ok f)) :
    File.create fs f = .error (.alreadyExists f.path) ∧
    (∀ fs2, File.remove fs f = .ok fs2 →
      File.create fs2 f = .ok (setFile fs2 f.path (some (.text none [])), [createMsg f])) := by
  have hinit : ∃ enc, File.init fs p enc = .ok f := by
    rcases h with ⟨enc, h1⟩ | ⟨encS, h2⟩
    · exact ⟨enc, h1⟩
    · exact ⟨some encS, sasInit_ok_fileInit fs p encS f h2⟩
  obtain ⟨enc, h1⟩ := hinit
  cases hfs : fs p with
  | none => simp [File.init, probeOpen, hfs] at h1
  | some d =>
      simp only [File.init, probeOpen, hfs] at h1
      injection h1 with h2
      have hpath : f.path = p := by rw [← h2]
      constructor
      · simp [File.create, openCreate, hpath, hfs]
      · intro fs2 hrm
        simp only [File.remove, hpath, hfs] at hrm
        injection hrm with h3
        subst h3
        simp [File.create, openCreate, hpath, setFile]

/-- Witness for C9 with a concrete constructed `Sas` object. -/
theorem create_after_init_witness :
    Sas.init fsRound srcPath ("latin1".data) = .ok objRound ∧
    File.create fsRound objRound = .error (.alreadyExists objRound.path) :=
  ⟨rfl, (create_after_init fsRound srcPath objRound (.inr ⟨"latin1".data, rfl⟩)).1⟩

/-- C7: in `to_csv()`, when a file exists at the derived target path the
warning notice is printed first and the file is deleted before any chunk
is written (in particular the target is still gone when a reader failure
aborts the run); when nothing is there, the failing `os.remove` is
swallowed silently — no warning appears and conversion proceeds; and any
error from the subsequent read escapes uncaught, unchanged, with the
completion notice never printed. -/
theorem toCsv_preclean_propagation (fs : Fs) (f : FileObj) (hne : f.path ≠ csvPath f) :
    (∀ d, fs (csvPath f) = some d →
        (Sas.toCsv fs f).msgs.head? = some (warnMsg (f.name ++ ".csv".data))) ∧
    (fs (csvPath f) = none → warnMsg (f.name ++ ".csv".data) ∉ (Sas.toCsv fs f).msgs) ∧
    (∀ e, readSasTable fs f.path = .error e →
        (Sas.toCsv fs f).err = some e ∧ (Sas.toCsv fs f).fs (csvPath f) = none ∧
        doneMsg f.file (f.name ++ ".csv".data) ∉ (Sas.toCsv fs f).msgs) ∧
    ((readSasTable fs f.path).isOk = true → (Sas.toCsv fs f).err = none) := by
  have hfs1 : setFile fs (csvPath f) none f.path = fs f.path := by
    simp [setFile, if_neg hne]
  cases htgt : fs (csvPath f) with
  | none =>
      cases hrd : readSasTable fs f.path with
      | error e0 =>
          have hric : Sas.readInChunks fs f 0 10000 = .error e0 := by
            simp [Sas.readInChunks, hrd, Except.map]
          refine ⟨?_, ?_, ?_, ?_⟩
          · intro d hd; simp at hd
          · intro _; simp [Sas.toCsv, htgt, hric]
          · intro e he
            injection he with h1
            subst h1
            refine ⟨?_, ?_, ?_⟩
            · simp [Sas.toCsv, htgt, hric]
            · simp [Sas.toCsv, htgt, hric]
            · simp [Sas.toCsv, htgt, hric]
          · intro hok; simp [Except.isOk, Except.toBool] at hok
      | ok t =>
          have hric : Sas.readInChunks fs f 0 10000
              = .ok ((chunksOf 10000 (applyLimit 0 t.rows)).map
                  (fun c => (⟨t.header, c⟩ : SasTable))) := by
            simp [Sas.readInChunks, hrd, Except.map]
          refine ⟨?_, ?_, ?_, ?_⟩
          · intro d hd; simp at hd
          · intro _
            simp only [Sas.toCsv, htgt, hric, List.nil_append]
            intro hmem
            simp at hmem
            exact warnMsg_ne_doneMsg _ _ _ hmem
          · intro e he; simp at he
          · intro _; simp [Sas.toCsv, htgt, hric]
  | some d0 =>
      have hrd1 : readSasTable (setFile fs (csvPath f) none) f.path
          = readSasTable fs f.path := by
        unfold readSasTable; rw [hfs1]
      cases hrd : readSasTable fs f.path with
      | error e0 =>
          have hric : Sas.readInChunks (setFile fs (csvPath f) none) f 0 10000
              = .error e0 := by
            simp [Sas.readInChunks, hrd1, hrd, Except.map]
          refine ⟨?_, ?_, ?_, ?_⟩
          · intro d hd; simp [Sas.toCsv, htgt, hric]
          · intro h0; simp at h0
          · intro e he
            injection he with h1
            subst h1
            refine ⟨?_, ?_, ?_⟩
            · simp [Sas.toCsv, htgt, hric]
            · simp [Sas.toCsv, htgt, hric, setFile]
            · simp only [Sas.toCsv, htgt, hric]
              intro hmem
              simp at hmem
              exact warnMsg_ne_doneMsg _ _ _ hmem.symm
          · intro hok; simp [Except.isOk, Except.toBool] at hok
      | ok t =>
          have hric : Sas.readInChunks (setFile fs (csvPath f) none) f 0 10000
              = .ok ((chunksOf 10000 (applyLimit 0 t.rows)).map
                  (fun c => (⟨t.header, c⟩ : SasTable))) := by
            simp [Sas.readInChunks, hrd1, hrd, Except.map]
          refine ⟨?_, ?_, ?_, ?_⟩
          · intro d hd; simp [Sas.toCsv, htgt, hric]
          · intro h0; simp at h0
          · intro e he; simp at he
          · intro _; simp [Sas.toCsv, htgt, hric]

/-- Witness for C7: a corrupt source with a pre-existing target — the
parse error propagates and the pre-cleaned target stays deleted. -/
theorem toCsv_preclean_propagation_witness :
    readSasTable fsCorrupt objRound.path = .error .parseError ∧
    ((Sas.toCsv fsCorrupt objRound).err = some .parseError ∧
      (Sas.toCsv fsCorrupt objRound).fs (csvPath objRound) = none ∧
      doneMsg objRound.file (objRound.name ++ ".csv".data)
        ∉ (Sas.toCsv fsCorrupt objRound).msgs) :=
  ⟨rfl, (toCsv_preclean_propagation fsCorrupt objRound (by decide)).2.2.1 .parseError rfl⟩
